import Mathlib

/-!
# Reflex — verification of the restart-orchestration core

Shallow embedding of the Reflex file-watching process runner
(`cmd/reflex/main.go`, `internal/watcher/watcher.go`, and the two
variants of the `internal/process` Manager found in the repository)
together with proofs about the embedded definitions.

Conventions:
* Go strings are `String`; the byte-wise suffix test `strings.HasSuffix`
  is modelled character-wise (all relevant literals are ASCII).
* Machine concurrency is modelled by explicit state passing: the
  controller loop of `runController` is a recursive function from the
  timed sequence of its inputs to the timed sequence of its side
  effects, and the process `Manager` is a state machine whose
  operating-system effects (signals, `wait`) are recorded explicitly.
-/

namespace Reflex

/-! ## Path helpers (Go `path/filepath` and `strings`, Unix rules)

`goBase` is Go's `filepath.Base` for Unix paths: empty input gives ".",
trailing separators are stripped, an all-separator path gives "/", and
otherwise the final path element is returned.  `hasSuffix` is
`strings.HasSuffix`. -/

def dropTrailingSeps (cs : List Char) : List Char :=
  (cs.reverse.dropWhile (fun c => c = '/')).reverse

def lastComp (cs : List Char) : List Char :=
  (cs.reverse.takeWhile (fun c => c ≠ '/')).reverse

def goBase (path : String) : String :=
  if path = "" then "."
  else
    let p := dropTrailingSeps path.data
    if p = [] then "/"
    else String.mk (lastComp p)

def hasSuffix (s suff : String) : Bool :=
  suff.data.isSuffixOf s.data

/-! ## Change filter (`internal/watcher/watcher.go`) -/

/-- `shouldIgnoreFile` from `watcher.go` lines 30–39: a path is ignored
when its base name ends in `-lock.json` or `.lock`. -/
def shouldIgnoreFile (path : String) : Bool :=
  let base := goBase path
  hasSuffix base "-lock.json" || hasSuffix base ".lock"

/-- One fsnotify event's operation bitmask, one flag per fsnotify bit. -/
structure Op where
  create : Bool
  write : Bool
  remove : Bool
  rename : Bool
  chmod : Bool
deriving DecidableEq, Repr

/-- `watcher.Event` from `watcher.go` lines 13–15. -/
structure Event where
  path : String
deriving DecidableEq, Repr

/-- The event-filtering body of the watcher goroutine (`watcher.go`
lines 83–99): an event is forwarded on the event channel exactly when
its op has the Write or Create bit, `shouldIgnoreFile` rejects it, and
some configured extension is a suffix of the name.  Returns the
forwarded event, or `none` when the event is dropped. -/
def filterEvent (extensions : List String) (name : String) (op : Op) : Option Event :=
  if op.write || op.create then
    if shouldIgnoreFile name then none
    else if extensions.any (fun ext => hasSuffix name ext) then some ⟨name⟩
    else none
  else none

/-- Spec-side predicate, for comparison with the code: "a path is a lock
file when its final path segment ends with `-lock.json` or `.lock`". -/
def isLockFile (path : String) : Bool :=
  hasSuffix (goBase path) "-lock.json" || hasSuffix (goBase path) ".lock"

theorem isLockFile_eq_shouldIgnoreFile (p : String) :
    isLockFile p = shouldIgnoreFile p := rfl

/-- C5: for every path whose final path segment (Go `filepath.Base`)
ends in `.lock` or `-lock.json`, the watcher's filter drops the event —
for any operation, in particular written/created — regardless of the
configured extension set. -/
theorem lockfile_not_restart_worthy (exts : List String) (p : String) (op : Op)
    (h : hasSuffix (goBase p) ".lock" = true ∨ hasSuffix (goBase p) "-lock.json" = true) :
    filterEvent exts p op = none := by
  unfold filterEvent shouldIgnoreFile
  rcases h with h | h <;> simp [h]

theorem lockfile_not_restart_worthy_w :
    (hasSuffix (goBase "sub/yarn.lock") ".lock" = true ∨
      hasSuffix (goBase "sub/yarn.lock") "-lock.json" = true) ∧
    filterEvent [".lock", ".json"] "sub/yarn.lock" ⟨false, true, false, false, false⟩ = none :=
  ⟨Or.inl (by decide),
    lockfile_not_restart_worthy [".lock", ".json"] "sub/yarn.lock"
      ⟨false, true, false, false, false⟩ (Or.inl (by decide))⟩

/-- C6: the filter forwards an event exactly when the op is a write or
create, the path is not a lock file, and some configured extension is a
(case-sensitive) suffix of the path; every other op kind (rename,
remove, chmod) is dropped. -/
theorem filterEvent_iff (exts : List String) (p : String) (op : Op) :
    (filterEvent exts p op).isSome = true ↔
      ((op.write = true ∨ op.create = true) ∧ isLockFile p = false ∧
        ∃ e ∈ exts, hasSuffix p e = true) := by
  rw [show isLockFile p = shouldIgnoreFile p from rfl]
  unfold filterEvent
  cases hw : op.write <;> cases hc : op.create <;>
    cases hi : shouldIgnoreFile p <;>
      simp [hw, hc, hi, List.any_eq_true]

/-! ## Initial tree walk (`watcher.go` lines 19–26 and 52–64)

`filepath.Walk` over the watched root, with the callback of `New`: a
directory whose name is in `ignoredDirs` returns `filepath.SkipDir`
(the whole subtree is skipped, nothing under it is registered); every
other directory is registered with `watcher.Add`.  The file tree is
modelled as a mutual inductive (a node is a file or a directory with a
forest of children); directory paths are lists of path components
relative to the watched root (the root itself is `[]`). -/

/-- `ignoredDirs` from `watcher.go` lines 19–26 (a set, modelled as a
list of names). -/
def ignoredDirs : List String :=
  ["node_modules", ".next", ".git", "dist", "build", ".cache"]

mutual
inductive Node where
  | file (name : String)
  | dir (name : String) (children : Forest)
deriving DecidableEq, Repr
inductive Forest where
  | nil
  | cons (head : Node) (tail : Forest)
deriving DecidableEq, Repr
end

def Node.name : Node → String
  | .file n => n
  | .dir n _ => n

mutual
/-- Directory paths (relative to this node) registered with
`watcher.Add` by the walk of `watcher.go` lines 52–64: an ignored
directory name yields `SkipDir` — neither it nor anything below it is
added; otherwise the directory is added and the walk descends. -/
def Node.watched : Node → List (List String)
  | .file _ => []
  | .dir n cs => if ignoredDirs.contains n then [] else [] :: Forest.watchedFrom cs
/-- Registered directory paths contributed by the children of a
directory, each prefixed with the child's own name. -/
def Forest.watchedFrom : Forest → List (List String)
  | .nil => []
  | .cons c rest => (Node.watched c).map (fun q => c.name :: q) ++ Forest.watchedFrom rest
end

/-- Modelled fsnotify semantics: watches added by `watcher.Add` are
per-directory and non-recursive, so the watch source can raise an event
for a path `p` only if `p`'s parent directory was registered. -/
def canEmit (t : Node) (p : List String) : Prop :=
  p.dropLast ∈ t.watched

instance (t : Node) (p : List String) : Decidable (canEmit t p) := by
  unfold canEmit; infer_instance

mutual
theorem node_watched_clean : ∀ (t : Node), ∀ q ∈ t.watched, ∀ d ∈ q,
    ignoredDirs.contains d = false
  | .file _ => by simp [Node.watched]
  | .dir n cs => by
      intro q hq d hd
      unfold Node.watched at hq
      split at hq
      · simp at hq
      · rcases List.mem_cons.mp hq with h | h
        · subst h; simp at hd
        · exact forest_watched_clean cs q h d hd
theorem node_watched_name_clean : ∀ (t : Node), ∀ q ∈ t.watched,
    ignoredDirs.contains t.name = false
  | .file _ => by simp [Node.watched]
  | .dir n cs => by
      intro q hq
      unfold Node.watched at hq
      split at hq
      · simp at hq
      · next hn => simpa [Node.name] using hn
theorem forest_watched_clean : ∀ (f : Forest), ∀ q ∈ f.watchedFrom, ∀ d ∈ q,
    ignoredDirs.contains d = false
  | .nil => by simp [Forest.watchedFrom]
  | .cons c rest => by
      intro q hq d hd
      unfold Forest.watchedFrom at hq
      rcases List.mem_append.mp hq with h | h
      · rcases List.mem_map.mp h with ⟨q', hq', rfl⟩
        rcases List.mem_cons.mp hd with rfl | hd'
        · exact node_watched_name_clean c q' hq'
        · exact node_watched_clean c q' hq' d hd'
      · exact forest_watched_clean rest q h d hd
end

/-- C9: for every modelled file tree and every path that lies under a
directory named `node_modules`, `.git`, `dist`, `build` or `.cache` at
any depth below the watched root, the watch source can never emit an
event for that path: the initial walk skipped the whole subtree, so the
path's parent directory was never registered. -/
theorem ignored_subtree_never_emits (t : Node) (p : List String)
    (h : ∃ d ∈ p.dropLast, d ∈ ["node_modules", ".git", "dist", "build", ".cache"]) :
    ¬ canEmit t p := by
  intro hmem
  rcases h with ⟨d, hd, hd5⟩
  have hclean := node_watched_clean t p.dropLast hmem d hd
  have : ignoredDirs.contains d = true := by
    fin_cases hd5 <;> decide
  rw [this] at hclean
  exact Bool.true_eq_false.mp hclean

theorem ignored_subtree_never_emits_w :
    (∃ d ∈ (["node_modules", "pkg", "a.js"] : List String).dropLast,
        d ∈ ["node_modules", ".git", "dist", "build", ".cache"]) ∧
    ¬ canEmit (.dir "root" (.cons (.dir "node_modules"
        (.cons (.dir "pkg" (.cons (.file "a.js") .nil)) .nil)) .nil))
      ["node_modules", "pkg", "a.js"] :=
  ⟨⟨"node_modules", by decide, by decide⟩,
    ignored_subtree_never_emits _ _ ⟨"node_modules", by decide, by decide⟩⟩

/-! ## Process supervisor (`internal/process` — two Manager variants)

The repository carries two variants of `process.Manager`.

* `ManagerBuffered`: output channel buffered to 100 lines, a `done`
  channel, a `started` flag that is never reset; its `Stop` closes
  `done`, SIGKILLs the process group when `Getpgid` succeeds, and
  returns `m.cmd.Wait()`.
* `ManagerUnbuffered`: unbuffered output channel, an `isRunning` flag
  reset by a background goroutine; its `Stop` only returns
  `syscall.Kill(-pid, SIGKILL)` — the reaping `cmd.Wait()` runs later
  in the background goroutine.

Modelled operating-system semantics, stated once here and used by both
variants: the child is placed in its own process group (`Setpgid`) with
pgid = pid; `SIGKILL` moves a running process to an unreaped zombie and
is accepted but discarded for an existing zombie; `Getpgid`/`Kill`
fail with ESRCH once the pid has been reaped; `exec.Cmd.Wait` reaps the
process, returns an `ExitError` when the child was killed by a signal,
and returns a "Wait was already called" error on a second call. -/

/-- Operating-system state of the child process: running; exited
normally (status 0) but not yet reaped; killed by SIGKILL but not yet
reaped; or reaped (pid gone). -/
inductive ProcState where
  | running
  | exited
  | killed
  | reaped
deriving DecidableEq, Repr

/-- Errors a Manager call can return, per the Go semantics above. -/
inductive GoErr where
  | pipeErr
  | spawnErr
  | exitErr
  | waitAlreadyCalled
  | esrch
deriving DecidableEq, Repr

/-- Outcome of the fallible steps of `Start` (pipe attachment and
`cmd.Start`), chosen by the environment. -/
inductive StartOutcome where
  | ok
  | pipeFail
  | spawnFail
deriving DecidableEq, Repr

/-- The buffered variant's state: `started` flag, whether `done` has
been closed, the child's OS state (`none` while `cmd`/`cmd.Process` is
nil), and whether `cmd.Wait` has already been called. -/
structure ManagerBuffered where
  started : Bool
  doneClosed : Bool
  proc : Option ProcState
  waitCalled : Bool
deriving DecidableEq, Repr

/-- `NewManager` of the buffered variant. -/
def ManagerBuffered.new : ManagerBuffered :=
  ⟨false, false, none, false⟩

/-- `Manager.Start` of the buffered variant (guards `if m.started`
first; on success the child is running in its own process group).  The
`Nat` counts child processes spawned by the call. -/
def ManagerBuffered.start (m : ManagerBuffered) (o : StartOutcome) :
    ManagerBuffered × Option GoErr × Nat :=
  if m.started = true then (m, none, 0)
  else
    match o with
    | .pipeFail => (m, some .pipeErr, 0)
    | .spawnFail => (m, some .spawnErr, 0)
    | .ok => ({ m with started := true, proc := some .running }, none, 1)

/-- `Manager.Stop` of the buffered variant: no-op on a never-started
handle; otherwise close `done` (idempotently), SIGKILL the process
group if `Getpgid` still succeeds, then return `m.cmd.Wait()`.  The
`Nat` counts SIGKILLs sent to the process group by the call. -/
def ManagerBuffered.stop (m : ManagerBuffered) :
    ManagerBuffered × Option GoErr × Nat :=
  if m.started = false ∨ m.proc = none then (m, none, 0)
  else
    match m.proc with
    | none => (m, none, 0)
    | some ps =>
      let m1 : ManagerBuffered := { m with doneClosed := true }
      let kills : Nat := if ps = .reaped then 0 else 1
      let ps1 : ProcState := if ps = .running then .killed else ps
      if m1.waitCalled = true then
        ({ m1 with proc := some ps1 }, some .waitAlreadyCalled, kills)
      else
        let res : Option GoErr :=
          match ps1 with
          | .killed => some .exitErr
          | .exited => none
          | .running => some .exitErr
          | .reaped => some .waitAlreadyCalled
        ({ m1 with proc := some .reaped, waitCalled := true }, res, kills)

/-- The background goroutine of the buffered variant after both stream
readers finish: `m.cmd.Wait()` then `close(m.output)` — if nobody has
waited yet, the child is reaped here. -/
def ManagerBuffered.finalize (m : ManagerBuffered) : ManagerBuffered :=
  if m.waitCalled = true then m
  else { m with proc := m.proc.map (fun _ => .reaped), waitCalled := true }

/-- The unbuffered variant's state: `isRunning` flag, the child's OS
state, and whether `cmd.Wait` has been called (by the background
goroutine). -/
structure ManagerUnbuffered where
  isRunning : Bool
  proc : Option ProcState
  waitCalled : Bool
deriving DecidableEq, Repr

/-- `NewManager` of the unbuffered variant. -/
def ManagerUnbuffered.new : ManagerUnbuffered :=
  ⟨false, none, false⟩

/-- `Manager.Start` of the unbuffered variant (guards
`if m.isRunning` first). -/
def ManagerUnbuffered.start (m : ManagerUnbuffered) (o : StartOutcome) :
    ManagerUnbuffered × Option GoErr × Nat :=
  if m.isRunning = true then (m, none, 0)
  else
    match o with
    | .pipeFail => (m, some .pipeErr, 0)
    | .spawnFail => (m, some .spawnErr, 0)
    | .ok => ({ m with isRunning := true, proc := some .running }, none, 1)

/-- `Manager.Stop` of the unbuffered variant: no-op when not running;
otherwise it returns `syscall.Kill(-pid, SIGKILL)` directly — it never
waits for the child.  The `Nat` counts SIGKILLs sent to the group. -/
def ManagerUnbuffered.stop (m : ManagerUnbuffered) :
    ManagerUnbuffered × Option GoErr × Nat :=
  if m.isRunning = false ∨ m.proc = none then (m, none, 0)
  else
    match m.proc with
    | none => (m, none, 0)
    | some ps =>
      match ps with
      | .reaped => (m, some .esrch, 0)
      | .running => ({ m with proc := some .killed }, none, 1)
      | _ => (m, none, 1)

/-- The background goroutine of the unbuffered variant after both
stream readers finish: `m.cmd.Wait()`, `m.isRunning = false`,
`close(m.outChan)` — this is where the child gets reaped. -/
def ManagerUnbuffered.finalize (m : ManagerUnbuffered) : ManagerUnbuffered :=
  if m.waitCalled = true then { m with isRunning := false }
  else { m with proc := m.proc.map (fun _ => .reaped), waitCalled := true,
                isRunning := false }

/-- C3 counterexample: in the unbuffered variant, `Stop` on a running
handle returns success (`nil`) while the child is still an unreaped
zombie — the claim that a non-error return implies the process has been
reaped is false on this variant. -/
theorem stop_before_reap_cex :
    ((ManagerUnbuffered.mk true (some .running) false).stop.2.1 = none) ∧
    ((ManagerUnbuffered.mk true (some .running) false).stop.1.proc = some ProcState.killed) ∧
    some ProcState.killed ≠ some ProcState.reaped := by decide

/-- C3 amended: `Stop` of the buffered variant returns only after the
child has been reaped (`cmd.Wait` completed inside the call), while
`Stop` of the unbuffered variant returns right after signalling, with
the child still an unreaped zombie; there the reaping happens later, in
the background goroutine (`finalize`). -/
theorem stop_reaping_by_variant (mb : ManagerBuffered) (mu : ManagerUnbuffered)
    (hb1 : mb.started = true) (hb2 : mb.proc = some ProcState.running)
    (hb3 : mb.waitCalled = false)
    (hu1 : mu.isRunning = true) (hu2 : mu.proc = some ProcState.running)
    (hu3 : mu.waitCalled = false) :
    (mb.stop.1.proc = some ProcState.reaped ∧ mb.stop.1.waitCalled = true) ∧
    (mu.stop.2.1 = none ∧ mu.stop.1.proc = some ProcState.killed ∧
      mu.stop.1.waitCalled = false ∧
      mu.stop.1.finalize.proc = some ProcState.reaped) := by
  cases mb with
  | mk s d p w =>
    cases mu with
    | mk r q v =>
      simp only at hb1 hb2 hb3 hu1 hu2 hu3
      subst hb1 hb2 hb3 hu1 hu2 hu3
      cases d <;> decide

theorem stop_reaping_by_variant_w :
    ((ManagerBuffered.mk true false (some ProcState.running) false).stop.1.proc
        = some ProcState.reaped ∧
      (ManagerBuffered.mk true false (some ProcState.running) false).stop.1.waitCalled = true) ∧
    ((ManagerUnbuffered.mk true (some ProcState.running) false).stop.2.1 = none ∧
      (ManagerUnbuffered.mk true (some ProcState.running) false).stop.1.proc
        = some ProcState.killed ∧
      (ManagerUnbuffered.mk true (some ProcState.running) false).stop.1.waitCalled = false ∧
      (ManagerUnbuffered.mk true (some ProcState.running) false).stop.1.finalize.proc
        = some ProcState.reaped) :=
  stop_reaping_by_variant
    (ManagerBuffered.mk true false (some ProcState.running) false)
    (ManagerUnbuffered.mk true (some ProcState.running) false)
    rfl rfl rfl rfl rfl rfl

/-- C4 counterexample: calling `Stop` twice in succession on a running
handle is not the claimed double no-op success.  In the unbuffered
variant the second call sends a second SIGKILL to the process group;
in the buffered variant already the first call returns a non-nil error
(the `ExitError` of the killed child from `cmd.Wait`). -/
theorem stop_idempotent_cex :
    ((ManagerUnbuffered.mk true (some ProcState.running) false).stop.1.stop.2.2 = 1) ∧
    ((ManagerBuffered.mk true false (some ProcState.running) false).stop.2.1
        = some GoErr.exitErr) := by decide

/-- C4 amended: `Stop` on a never-started handle is a no-op success in
both variants.  On a running handle called twice in succession: the
buffered variant sends exactly one SIGKILL (none on the second call)
but returns errors — the killed child's exit error first, then a
"Wait already called" error; the unbuffered variant returns `nil` both
times but sends a SIGKILL to the process group on each call. -/
theorem stop_call_semantics (mb : ManagerBuffered) (mu : ManagerUnbuffered)
    (hb1 : mb.started = true) (hb2 : mb.proc = some ProcState.running)
    (hb3 : mb.waitCalled = false)
    (hu1 : mu.isRunning = true) (hu2 : mu.proc = some ProcState.running) :
    (∀ m : ManagerBuffered, m.started = false → m.stop = (m, none, 0)) ∧
    (∀ m : ManagerUnbuffered, m.isRunning = false → m.stop = (m, none, 0)) ∧
    (mb.stop.2 = (some GoErr.exitErr, 1) ∧
      mb.stop.1.stop.2 = (some GoErr.waitAlreadyCalled, 0)) ∧
    (mu.stop.2 = (none, 1) ∧ mu.stop.1.stop.2 = (none, 1)) := by
  refine ⟨?_, ?_, ?_, ?_⟩
  · intro m h
    unfold ManagerBuffered.stop
    simp [h]
  · intro m h
    unfold ManagerUnbuffered.stop
    simp [h]
  · cases mb with
    | mk s d p w =>
      simp only at hb1 hb2 hb3
      subst hb1 hb2 hb3
      cases d <;> decide
  · cases mu with
    | mk r q v =>
      simp only at hu1 hu2
      subst hu1 hu2
      cases v <;> decide

theorem stop_call_semantics_w :
    (∀ m : ManagerBuffered, m.started = false → m.stop = (m, none, 0)) ∧
    (∀ m : ManagerUnbuffered, m.isRunning = false → m.stop = (m, none, 0)) ∧
    ((ManagerBuffered.mk true false (some ProcState.running) false).stop.2
        = (some GoErr.exitErr, 1) ∧
      (ManagerBuffered.mk true false (some ProcState.running) false).stop.1.stop.2
        = (some GoErr.waitAlreadyCalled, 0)) ∧
    ((ManagerUnbuffered.mk true (some ProcState.running) false).stop.2 = (none, 1) ∧
      (ManagerUnbuffered.mk true (some ProcState.running) false).stop.1.stop.2
        = (none, 1)) :=
  stop_call_semantics
    (ManagerBuffered.mk true false (some ProcState.running) false)
    (ManagerUnbuffered.mk true (some ProcState.running) false)
    rfl rfl rfl rfl rfl

/-- C10: `Start` is idempotent at the public interface in both Manager
variants: on an already-started Manager it returns `nil`, spawns no
second child process, and leaves the Manager's state unchanged —
whatever the environment's outcome for the fallible spawn steps would
have been. -/
theorem start_idempotent (mb : ManagerBuffered) (mu : ManagerUnbuffered)
    (ob ou : StartOutcome)
    (hb : mb.started = true) (hu : mu.isRunning = true) :
    mb.start ob = (mb, none, 0) ∧ mu.start ou = (mu, none, 0) := by
  unfold ManagerBuffered.start ManagerUnbuffered.start
  simp [hb, hu]

theorem start_idempotent_w :
    (ManagerBuffered.mk true false (some ProcState.running) false).start .ok
        = (ManagerBuffered.mk true false (some ProcState.running) false, none, 0) ∧
    (ManagerUnbuffered.mk true (some ProcState.running) false).start .ok
        = (ManagerUnbuffered.mk true (some ProcState.running) false, none, 0) :=
  start_idempotent
    (ManagerBuffered.mk true false (some ProcState.running) false)
    (ManagerUnbuffered.mk true (some ProcState.running) false)
    .ok .ok rfl rfl

/-! ## Restart controller (`cmd/reflex/main.go`, `runController`)

`runController` is one goroutine whose only inputs are: the events of
the (unbuffered) watcher channel, context cancellation, and the
debounce timer.  It is embedded as a recursive function from a timed
input sequence to the timed sequence of its externally visible actions:

* inputs: `evs : List FileEv` — worthy change events in channel order,
  each with its arrival time in milliseconds (the channel is unbuffered,
  so an event that arrives while the controller is busy is received
  when the controller next reaches its `select`, at
  `max now arrival`); `sd? : Option Nat` — the time at which the
  context is cancelled, if ever; `outs : List (Option String)` — the
  environment's outcome for each successive `proc.Start()` call
  (`none`: success, `some e`: failure with error text `e`);
* output: the `(time, action)` trace — status messages, output lines,
  log clears, `Stop` calls and spawn attempts, in program order.

Determinization of `select` when several branches are ready at the same
instant: cancellation wins ties (Go picks randomly; every claim below
is settled away from ties).  The debounce wait (`main.go` lines
191-195) selects only on `ctx.Done()` and `time.After(restartDebounce)`
— pending change events are NOT drained there; they stay queued and are
received by later loop iterations.  The output-forwarding goroutine of
`startProcess` runs independently and is not part of this trace. -/

/-- `restartDebounce` from `main.go` line 64, in milliseconds. -/
def restartDebounce : Nat := 250

/-- Externally visible actions of the controller goroutine. -/
inductive Act where
  | status (s : String)
  | outLine (s : String)
  | clearLogs
  | stop
  | spawnOk
  | spawnFail
deriving DecidableEq, Repr

/-- A worthy change event with its arrival time. -/
structure FileEv where
  t : Nat
  path : String
deriving DecidableEq, Repr

/-- Whether a `proc.Start()` outcome produced a process handle
(`startProcess` returns nil on failure, `main.go` lines 206-214). -/
def startOk : Option String → Bool
  | none => true
  | some _ => false

/-- Actions of one `startProcess` call (`main.go` lines 206-241): on
success the spawn plus the "Running" status; on failure the failed
spawn, the error status and the error output line sent to the UI. -/
def startActs : Option String → List Act
  | none => [.spawnOk, .status "Running"]
  | some e => [.spawnFail, .status "Error: failed to start",
               .outLine ("Error: " ++ e)]

/-- The deferred cleanup of `runController` (`main.go` lines 154-159),
run on every return: if a process handle is held, send the stopping
status and call `Stop`. -/
def exitActs (t : Nat) (cur : Bool) : List (Nat × Act) :=
  if cur then [(t, .status "Stopping..."), (t, .stop)] else []

/-- The main event loop of `runController` (`main.go` lines 166-201).
State: `now` — the controller's clock; `cur` — whether a process handle
is currently held; `evs` — events still queued; `outs` — remaining
start outcomes.  Per iteration: if cancellation is ready no later than
the next event, the loop returns (deferred cleanup); otherwise the
event is received at `max now e.t`, the "Restarting..." status is sent,
`Stop` is called iff a handle is held and the handle is cleared, then
the debounce select runs: cancellation during the window aborts the
wait at once (deferred cleanup, with no handle held), else after
`restartDebounce` the logs are cleared and `startProcess` runs. -/
def ctrlLoop : Option Nat → Nat → Bool → List FileEv → List (Option String) →
    List (Nat × Act)
  | some sd, now, cur, [], _ => exitActs (max now sd) cur
  | none, _, _, [], _ => []
  | some sd, now, cur, e :: rest, outs =>
      if sd ≤ max now e.t then exitActs (max now sd) cur
      else
        (max now e.t, .status "Restarting...") ::
          ((if cur then [(max now e.t, .stop)] else []) ++
            (if sd ≤ max now e.t + restartDebounce then
              exitActs sd false
            else
              (max now e.t + restartDebounce, .clearLogs) ::
                ((startActs (outs.head?.getD none)).map
                    (fun a => (max now e.t + restartDebounce, a)) ++
                  ctrlLoop (some sd) (max now e.t + restartDebounce)
                    (startOk (outs.head?.getD none)) rest outs.tail)))
  | none, now, cur, e :: rest, outs =>
      (max now e.t, .status "Restarting...") ::
        ((if cur then [(max now e.t, .stop)] else []) ++
          ((max now e.t + restartDebounce, .clearLogs) ::
            ((startActs (outs.head?.getD none)).map
                (fun a => (max now e.t + restartDebounce, a)) ++
              ctrlLoop none (max now e.t + restartDebounce)
                (startOk (outs.head?.getD none)) rest outs.tail)))

/-- `runController` (`main.go` lines 143-202): the initial status and
`startProcess` call at time 0 (unconditional — the context is first
consulted in the loop's `select`), then the main loop. -/
def runController (sd? : Option Nat) (evs : List FileEv)
    (outs : List (Option String)) : List (Nat × Act) :=
  (0, .status "Starting process...") ::
    ((startActs (outs.head?.getD none)).map (fun a => (0, a)) ++
      ctrlLoop sd? 0 (startOk (outs.head?.getD none)) evs outs.tail)

def Act.isSpawn : Act → Bool
  | .spawnOk => true
  | .spawnFail => true
  | _ => false

def Act.isStop : Act → Bool
  | .stop => true
  | _ => false

/-- Number of `proc.Start()` calls in a trace. -/
def countSpawns (tr : List (Nat × Act)) : Nat :=
  (tr.filter (fun x => x.2.isSpawn)).length

/-- Number of `Stop` calls in a trace. -/
def countStops (tr : List (Nat × Act)) : Nat :=
  (tr.filter (fun x => x.2.isStop)).length

/-- Scans an action list tracking how many child processes are alive
(`spawnOk` adds one; `stop` SIGKILLs the whole current process group,
leaving none) and checks that every spawn happens while no child is
alive.  `spawnSafe 0 tr = true` hence means the previous child is
stopped before each new start, and at most one child is ever alive. -/
def spawnSafe : Nat → List Act → Bool
  | _, [] => true
  | n, .spawnOk :: r => (n == 0) && spawnSafe (n + 1) r
  | n, .spawnFail :: r => (n == 0) && spawnSafe n r
  | _, .stop :: r => spawnSafe 0 r
  | n, _ :: r => spawnSafe n r

theorem ctrlLoop_spawnSafe (evs : List FileEv) : ∀ (sd? : Option Nat) (now : Nat)
    (cur : Bool) (outs : List (Option String)),
    spawnSafe (if cur then 1 else 0) ((ctrlLoop sd? now cur evs outs).map Prod.snd)
      = true := by
  induction evs with
  | nil =>
    intro sd? now cur outs
    cases sd? <;> cases cur <;> simp [ctrlLoop, exitActs, spawnSafe]
  | cons e rest ih =>
    intro sd? now cur outs
    have ih1 : ∀ (a : Option Nat) (b : Nat) (c : List (Option String)),
        spawnSafe 1 ((ctrlLoop a b true rest c).map Prod.snd) = true :=
      fun a b c => by simpa using ih a b true c
    have ih0 : ∀ (a : Option Nat) (b : Nat) (c : List (Option String)),
        spawnSafe 0 ((ctrlLoop a b false rest c).map Prod.snd) = true :=
      fun a b c => by simpa using ih a b false c
    cases sd? with
    | none =>
      cases cur <;> cases h : outs.head?.getD none <;>
        simp [ctrlLoop, spawnSafe, startActs, startOk, h, ih1, ih0]
    | some sd =>
      by_cases h1 : sd ≤ max now e.t
      · cases cur <;> simp [ctrlLoop, h1, exitActs, spawnSafe]
      · by_cases h2 : sd ≤ max now e.t + restartDebounce
        · cases cur <;> simp [ctrlLoop, h1, h2, exitActs, spawnSafe]
        · cases cur <;> cases h : outs.head?.getD none <;>
            simp [ctrlLoop, h1, h2, spawnSafe, startActs, startOk, h, ih1, ih0]

/-- C1: in every run of the controller — any event arrival times, any
cancellation time, any start outcomes — every spawn in the emitted
trace happens while no previously started child is alive: the held
handle is stopped (and the stop call has returned) before the next
start, so at most one child process exists at any point of the trace. -/
theorem controller_no_overlap (sd? : Option Nat) (evs : List FileEv)
    (outs : List (Option String)) :
    spawnSafe 0 ((runController sd? evs outs).map Prod.snd) = true := by
  have h1 : ∀ (a : Option Nat) (b : Nat) (c : List (Option String)),
      spawnSafe 1 ((ctrlLoop a b true evs c).map Prod.snd) = true :=
    fun a b c => by simpa using ctrlLoop_spawnSafe evs a b true c
  have h0 : ∀ (a : Option Nat) (b : Nat) (c : List (Option String)),
      spawnSafe 0 ((ctrlLoop a b false evs c).map Prod.snd) = true :=
    fun a b c => by simpa using ctrlLoop_spawnSafe evs a b false c
  unfold runController
  cases h : outs.head?.getD none <;>
    simp [startActs, startOk, spawnSafe, h, h1, h0]

/-- C2, behaviour at the failing input: two worthy events arrive at
t = 0ms and t = 10ms — both inside the first 250ms debounce window —
yet the controller performs two full stop+start cycles (stops at t = 0
and t = 250, restarts at t = 250 and t = 500): the debounce delays each
restart but never absorbs the queued second event. -/
theorem burst_not_coalesced :
    (10 : Nat) < restartDebounce ∧
    countStops (runController none [⟨0, "a.js"⟩, ⟨10, "b.js"⟩] [none, none, none]) = 2 ∧
    countSpawns (runController none [⟨0, "a.js"⟩, ⟨10, "b.js"⟩] [none, none, none]) = 3 ∧
    (250, Act.stop) ∈ runController none [⟨0, "a.js"⟩, ⟨10, "b.js"⟩] [none, none, none] ∧
    (500, Act.spawnOk) ∈ runController none [⟨0, "a.js"⟩, ⟨10, "b.js"⟩] [none, none, none] := by
  decide

/-- C7: if cancellation arrives during the debounce wait (strictly
after the event is received, no later than the window's end), the wait
aborts at the cancellation instant — every trace timestamp stays ≤ the
cancellation time, in particular nothing happens at the window's end —
and no replacement process is started (the only spawn is the initial
one). -/
theorem shutdown_aborts_debounce (et sd : Nat) (p : String) (o1 : Option String)
    (outs : List (Option String)) (h1 : et < sd) (h2 : sd ≤ et + restartDebounce) :
    countSpawns (runController (some sd) [⟨et, p⟩] (o1 :: outs)) = 1 ∧
    ∀ x ∈ runController (some sd) [⟨et, p⟩] (o1 :: outs), x.1 ≤ sd := by
  have hn1 : ¬ sd ≤ et := not_le.mpr h1
  have hle : et ≤ sd := Nat.le_of_lt h1
  cases o1 <;>
    refine ⟨?_, ?_⟩ <;>
      simp [runController, ctrlLoop, startActs, startOk, exitActs,
        countSpawns, Act.isSpawn, hn1, h2, hle]

theorem shutdown_aborts_debounce_w :
    ((100 : Nat) < 200 ∧ (200 : Nat) ≤ 100 + restartDebounce) ∧
    (countSpawns (runController (some 200) [⟨100, "a.ts"⟩] [none]) = 1 ∧
      ∀ x ∈ runController (some 200) [⟨100, "a.ts"⟩] [none], x.1 ≤ 200) :=
  ⟨⟨by decide, by decide⟩,
    shutdown_aborts_debounce 100 200 "a.ts" none [] (by decide) (by decide)⟩

/-- C8: when the initial `proc.Start()` fails, the controller sends the
error status AND the error output line to the UI at once, holds no
process handle (no `Stop` ever gets called in this run), and keeps its
loop running: the next worthy change event leads to another spawn
attempt. -/
theorem spawn_failure_not_fatal (e : String) (et : Nat) (p : String)
    (o2 : Option String) :
    (0, Act.status "Error: failed to start") ∈ runController none [⟨et, p⟩] [some e, o2] ∧
    (0, Act.outLine ("Error: " ++ e)) ∈ runController none [⟨et, p⟩] [some e, o2] ∧
    countStops (runController none [⟨et, p⟩] [some e, o2]) = 0 ∧
    countSpawns (runController none [⟨et, p⟩] [some e, o2]) = 2 := by
  cases o2 <;>
    simp [runController, ctrlLoop, startActs, startOk, exitActs,
      countStops, countSpawns, Act.isStop, Act.isSpawn]

end Reflex
